import Mathlib

/-!
Verification of the automerger action's merge-eligibility and rollup-conflict
engine.  The TypeScript sources (`src/main.ts`, `src/git.ts`) are shallowly
embedded: every external effect (a spawned `git` process, a platform API call,
a wall-clock delay) is represented by an explicit oracle argument giving the
result of each call, and each embedded function returns the value the source
function would produce together with a record of the observable effects it
would perform (delays slept, statuses posted, events emitted).
-/

set_option autoImplicit false

namespace Automerger

/-! ## Definitions: shallow embedding of `src/git.ts` and `src/main.ts` -/

/--
Failure of one spawned `git` invocation, as rejected by `git()` in
`src/git.ts`: either an `ExitError` carrying the process exit code (which is
`number | null`) and the captured stdout, or a plain `Error` from a failed
spawn (the `proc.on("error", ...)` path).
-/
inductive GitFail where
  | exitError (code : Option Int) (stdout : String)
  | procError (msg : String)
deriving DecidableEq, Repr

/-- Result of one `git` invocation: captured stdout on exit code 0,
a `GitFail` otherwise. -/
abbrev GitResult := Except GitFail String

/--
Errors that can escape the embedded `git.ts` helpers: the `TimeoutError`
thrown by `fetchUntilMergeBase`, the `Error("empty refs!")` thrown by
`mergeBase`, the `Error("failed to find common base ...")` thrown by
`fetchUntilMergeBase`, or a propagated failure of an underlying `git`
invocation.
-/
inductive Err where
  | timeout
  | emptyRefs
  | noCommonBase
  | git (e : GitFail)
deriving DecidableEq, Repr

/--
The `while (todo.length > 1)` loop inside `mergeBase` (`src/git.ts`):
repeatedly replaces the first two refs by the output of
`git merge-base todo[0] todo[1]`.  `prim a b` is the result of that
invocation; `acc` is `todo[0]` and the list argument the remaining refs.
Returns the final single ref, or the first failure, together with the
number of `git merge-base` invocations performed.
-/
def mergeBaseLoop (prim : String → String → GitResult) :
    String → List String → Nat → GitResult × Nat
  | acc, [], n => (.ok acc, n)
  | acc, b :: rest, n =>
    match prim acc b with
    | .ok base => mergeBaseLoop prim base rest (n + 1)
    | .error e => (.error e, n + 1)

/--
`mergeBase` from `src/git.ts`: a single ref is returned unchanged, an empty
ref list throws `Error("empty refs!")`, otherwise the refs are reduced
pairwise; an `ExitError` with exit code 1 (no common ancestor) is caught and
turned into `null`, every other failure propagates.  The second component
counts the `git merge-base` invocations performed.
-/
def mergeBase (prim : String → String → GitResult) (refs : List String) :
    Except Err (Option String) × Nat :=
  match refs with
  | [r] => (.ok (some r), 0)
  | [] => (.error .emptyRefs, 0)
  | a :: b :: rest =>
    match mergeBaseLoop prim a (b :: rest) 0 with
    | (.ok base, n) => (.ok (some base), n)
    | (.error (.exitError (some 1) _), n) => (.ok none, n)
    | (.error e, n) => (.error (.git e), n)

/--
`abortMerge` from `src/git.ts`: runs `git merge --abort` (whose result is
`prim`); an `ExitError` with exit code 128 ("no merge in progress") is
swallowed, any other failure is re-thrown.
-/
def abortMerge (prim : GitResult) : Except GitFail Unit :=
  match prim with
  | .ok _ => .ok ()
  | .error e =>
    match e with
    | .exitError (some 128) _ => .ok ()
    | _ => .error e

/--
The git invocations performed by one run of `canMergeCleanly`
(`src/git.ts`), in source order: `checkout base`, `pull --no-commit`,
`fetch origin mergingBranch`, `merge --no-commit mergingBranch`, and the
`merge --abort` issued by `abortMerge` (exactly one of the two `abortMerge`
call sites runs per invocation).
-/
structure CanMergeCalls where
  checkout : GitResult
  pull : GitResult
  fetch : GitResult
  mergeNoCommit : GitResult
  abortPrim : GitResult
deriving Repr

/--
`canMergeCleanly` from `src/git.ts`.  Returns `.ok none` when the
exploratory no-commit merge succeeds (after aborting it), `.ok (some out)`
with the captured stdout when the merge fails with an `ExitError`, and —
faithfully to the source — falls through to `return null` when the merge
fails with an error that is *not* an `ExitError`.  Failures of the three
setup commands and of `abortMerge` propagate.
-/
def canMergeCleanly (c : CanMergeCalls) : Except GitFail (Option String) :=
  match c.checkout with
  | .error e => .error e
  | .ok _ =>
    match c.pull with
    | .error e => .error e
    | .ok _ =>
      match c.fetch with
      | .error e => .error e
      | .ok _ =>
        match c.mergeNoCommit with
        | .ok _ =>
          match abortMerge c.abortPrim with
          | .error e => .error e
          | .ok _ => .ok none
        | .error err =>
          match abortMerge c.abortPrim with
          | .error e => .error e
          | .ok _ =>
            match err with
            | .exitError _ out => .ok (some out)
            | .procError _ => .ok none

/--
The fields of one `pulls.get` response that `checkMergeability` inspects:
`mergeable` (`boolean | null`) and `mergeable_state` (a string such as
`"clean"`, `"unstable"`, `"dirty"`, `"unknown"`, ...).
-/
structure PRData where
  mergeable : Option Bool
  mergeable_state : String
deriving DecidableEq, Repr

/--
`checkMergeability` from `src/main.ts`.  `fetch i` is the pull request
state returned by the `i`-th `pulls.get` call of this probe (the initial
call is `i = 0`).  If the fetched state has `mergeable === null` or
`mergeable_state !== "clean"` and retries remain, it sleeps 2000 ms and
recurses with one fewer retry; on exhaustion (or a clean state) it returns
the fetched state.  The second component lists the delays slept, in ms.
-/
def checkMergeability (fetch : Nat → PRData) : Nat → Nat → PRData × List Nat
  | 0, i =>
    let pull := fetch i
    if pull.mergeable = none ∨ pull.mergeable_state ≠ "clean" then (pull, [])
    else (pull, [])
  | r + 1, i =>
    let pull := fetch i
    if pull.mergeable = none ∨ pull.mergeable_state ≠ "clean" then
      let rest := checkMergeability fetch r (i + 1)
      (rest.1, 2000 :: rest.2)
    else (pull, [])

/-- The verdict sequence `[unknown, unknown, clean]` from the spec's probe
scenario: the first two fetches see `mergeable = null`, the third sees a
clean state. -/
def probeSeq : Nat → PRData := fun i =>
  if i < 2 then ⟨none, "unknown"⟩ else ⟨some true, "clean"⟩

/--
Observable behaviour of one `retry` run: the returned boolean, the number
of `doRetry` calls made, the delays slept before each retry (in ms, in
order), and whether the `doFailed` callback ran.
-/
structure RetryTrace where
  result : Bool
  retryCalls : Nat
  delays : List Nat
  failedCalled : Bool
deriving DecidableEq, Repr

/--
The `for (let run = 1; run <= retries; run++)` loop of `retry`
(`src/main.ts`): each iteration sleeps `sleep` ms, then calls `doRetry`;
a `true` result returns immediately.  `rem` is the number of iterations
remaining, `run` the current iteration index.  When the loop exhausts,
`doFailed` runs and the overall result is `false`.
-/
def retryLoop (sleep : Nat) (doRetry : Nat → Bool) : Nat → Nat → RetryTrace
  | _run, 0 => ⟨false, 0, [], true⟩
  | run, rem + 1 =>
    if doRetry run then ⟨true, 1, [sleep], false⟩
    else
      let rest := retryLoop sleep doRetry (run + 1) rem
      ⟨rest.result, rest.retryCalls + 1, sleep :: rest.delays, rest.failedCalled⟩

/--
`retry` from `src/main.ts`: one initial `doInitial` attempt, then up to
`retries` further attempts, each preceded by a fixed `sleep` delay.
-/
def retry (retries sleep : Nat) (doInitial : Bool) (doRetry : Nat → Bool) : RetryTrace :=
  if doInitial then ⟨true, 0, [], false⟩
  else retryLoop sleep doRetry 1 retries

/--
Outcome of one call to the platform merge endpoint inside `tryMerge`
(`src/main.ts`): an HTTP response with a status code, or a thrown
transport error.
-/
inductive MergeResp where
  | status (code : Nat)
  | exn (msg : String)
deriving DecidableEq, Repr

/--
The inner `mergePR` closure of `tryMerge`: attempt `k` succeeds exactly
when the endpoint response `resp k` is a status-200 response; any other
status, or a thrown error, is a soft failure.
-/
def mergePR (resp : Nat → MergeResp) (k : Nat) : Bool :=
  match resp k with
  | .status c => c == 200
  | .exn _ => false

/--
`tryMerge` from `src/main.ts`: `retry(3, 10000, mergePR, mergePR, ...)` —
the initial attempt is call 0, retry `run` is call `run`.
-/
def tryMerge (resp : Nat → MergeResp) : RetryTrace :=
  retry 3 10000 (mergePR resp 0) (fun run => mergePR resp run)

/-- A pull request label (`{ name: string }` in the webhook payload). -/
structure Label where
  name : String
deriving DecidableEq, Repr

/-- The `ref`/`sha` pair of a pull request head or base
(`RefCommon` in `src/main.ts`). -/
structure RefCommon where
  ref : String
  sha : String
deriving DecidableEq, Repr

/--
The fields of a pull request that the classifier and orchestrator read:
number, head and base refs, title, labels, and the mergeability verdict
(`PullRequestExtended` in `src/main.ts`).
-/
structure PullRequestX where
  number : Nat
  head : RefCommon
  base : RefCommon
  title : String
  labels : List Label
  mergeable : Option Bool
  mergeable_state : String
deriving DecidableEq, Repr

/--
`isMergingIntoRelease` from `src/main.ts`: the base ref is `release-ios`,
`release-web`, `release`, or any branch under the `releases/` prefix.
-/
def isMergingIntoRelease (pr : PullRequestX) : Bool :=
  pr.base.ref == "release-ios"
    || pr.base.ref == "release-web"
    || pr.base.ref == "release"
    || pr.base.ref.startsWith "releases/"

/-- Outcome of `processPR`: throw `NoError` (a non-error skip) or fall
through to `automerge`. -/
inductive ProcessOutcome where
  | skip
  | merge
deriving DecidableEq, Repr

/--
The classification performed by `processPR` (`src/main.ts`), in source
order: a verdict other than `clean`/`unstable` skips; a missing `Automerge`
label skips; a base ref that is neither `master` nor a release branch
skips; otherwise control reaches `automerge`.
-/
def processPR (pr : PullRequestX) : ProcessOutcome :=
  if pr.mergeable_state ≠ "clean" ∧ pr.mergeable_state ≠ "unstable" then .skip
  else if ¬ (pr.labels.map Label.name).contains "Automerge" then .skip
  else if pr.base.ref ≠ "master" ∧ ¬ isMergingIntoRelease pr then .skip
  else .merge

/-- The merge strategies accepted by the platform merge endpoint
(`MergeMethod` in `src/main.ts`). -/
inductive MergeMethod where
  | merge
  | squash
  | rebase
deriving DecidableEq, Repr

/--
The strategy selection at the top of `automerge` (`src/main.ts`): the
method starts as `merge` with no commit title; a PR into `master` whose
head is not a generated `feature/fix-pr-` reconciliation branch is instead
squashed with the synthesized title `"<title> (#<number>)"`.
-/
def automergeStrategy (pr : PullRequestX) : MergeMethod × Option String :=
  if pr.base.ref == "master" && !(pr.head.ref.startsWith "feature/fix-pr-") then
    (.squash, some (pr.title ++ " (#" ++ toString pr.number ++ ")"))
  else (.merge, none)

/-- Combined eligibility verdict: either the classifier skips, or the PR
proceeds to `automerge` with the selected method and commit title. -/
inductive Decision where
  | skip
  | go (method : MergeMethod) (title : Option String)
deriving DecidableEq, Repr

/-- `processPR` followed by `automerge`'s strategy selection. -/
def classify (pr : PullRequestX) : Decision :=
  match processPR pr with
  | .skip => .skip
  | .merge => Decision.go (automergeStrategy pr).1 (automergeStrategy pr).2

/-- A labelled PR into `master` whose verdict is `dirty`: used to witness
that C2 skips even a PR that passes every other check. -/
def prDirty : PullRequestX :=
  { number := 7
    head := ⟨"feature/foo", "headsha"⟩
    base := ⟨"master", "basesha"⟩
    title := "Add thing"
    labels := [⟨"Automerge"⟩]
    mergeable := some false
    mergeable_state := "dirty" }

/-- A clean, labelled PR from a feature branch into `master`. -/
def prMaster : PullRequestX :=
  { number := 42
    head := ⟨"feature/foo", "headsha"⟩
    base := ⟨"master", "basesha"⟩
    title := "Add thing"
    labels := [⟨"Automerge"⟩]
    mergeable := some true
    mergeable_state := "clean" }

/-- One commit status as returned by `repos.listStatusesForRef`: its
`context` and `state` strings.  The platform returns statuses most recent
first, so `myStatuses[0]` in the source is the most recent one. -/
structure CommitStatus where
  context : String
  state : String
deriving DecidableEq, Repr

/-- The fixed status-check context string posted by this system. -/
def rollupStatusContext : String := "Sportsbot: release to master automerge"

/-- Observable behaviour of one `checkRollupToMaster` run: the returned
boolean (`true` = no conflict, proceed), the statuses it created, and
whether it posted the explanatory comment. -/
structure RollupActions where
  result : Bool
  postedStatuses : List CommitStatus
  commentPosted : Bool
deriving DecidableEq, Repr

/--
`checkRollupToMaster` from `src/main.ts`.  `mergeMsg` is the result of
`git.canMergeCleanly` (`none` = merges cleanly), `existingStatuses` the
statuses already on the head commit, most recent first.  On a conflict it
posts exactly one `failure` status with the fixed context, plus the
explanatory comment unless more than one status with that context already
exists and the most recent of them is in state `failure` or `error`.
On a clean merge it returns `true` and posts nothing.
-/
def checkRollupToMaster (mergeMsg : Option String) (existingStatuses : List CommitStatus) :
    RollupActions :=
  let myStatuses := existingStatuses.filter (fun s => s.context == rollupStatusContext)
  let needsComment :=
    if myStatuses.length > 1 then
      match myStatuses.head? with
      | some s0 => !(s0.state == "failure" || s0.state == "error")
      | none => true
    else true
  match mergeMsg with
  | some _ =>
    { result := false
      postedStatuses := [⟨rollupStatusContext, "failure"⟩]
      commentPosted := needsComment }
  | none => { result := true, postedStatuses := [], commentPosted := false }

/--
The externally observable steps of one `automerge` run, in order: pointing
the git remote at the app credentials, the rollup-conflict check (with
whether it reported a conflict), the local forward-merge of the head branch
into `master` (with whether it failed), the push of `master`, and the
platform-level merge attempt of the pull request itself (`tryMerge`).
-/
inductive AEvent where
  | setRemote
  | rollupCheck (conflict : Bool)
  | localMergeMaster (failed : Bool)
  | pushMaster
  | mergePRAttempt
deriving DecidableEq, Repr

/-- Terminal outcome of one `automerge` run. -/
inductive AOutcome where
  | done
  | rollupAborted
  | threwMergeToMasterFailed
  | threwMergeFailed
deriving DecidableEq, Repr

/--
`automerge` from `src/main.ts`, as a trace of its effects.  The oracles
give the results of the three effectful sub-calls: `rollupOk` is the
boolean returned by `checkRollupToMaster`, `localMergeResult` the result of
`git.merge(repoDir, "master", pr.head.ref)` (`none` = clean), `tryMergeOk`
the result of `tryMerge`.  For a release-target PR the source runs:
`setGitRemoteToAppPermission`; `checkRollupToMaster` (aborting on a
conflict); `git.merge` into `master` (throwing on failure); `git.push` of
`master`; and only then `tryMerge` of the PR itself.  For a `master`-target
PR only the `tryMerge` step runs.
-/
def automerge (pr : PullRequestX) (rollupOk : Bool) (localMergeResult : Option String)
    (tryMergeOk : Bool) : List AEvent × AOutcome :=
  if isMergingIntoRelease pr then
    if !rollupOk then
      ([.setRemote, .rollupCheck true], .rollupAborted)
    else
      match localMergeResult with
      | some _ =>
        ([.setRemote, .rollupCheck false, .localMergeMaster true], .threwMergeToMasterFailed)
      | none =>
        if tryMergeOk then
          ([.setRemote, .rollupCheck false, .localMergeMaster false, .pushMaster,
            .mergePRAttempt], .done)
        else
          ([.setRemote, .rollupCheck false, .localMergeMaster false, .pushMaster,
            .mergePRAttempt], .threwMergeFailed)
  else
    ([.mergePRAttempt], if tryMergeOk then AOutcome.done else AOutcome.threwMergeFailed)

/-- A clean, labelled PR into the `release-ios` release branch. -/
def prRelease : PullRequestX :=
  { number := 9
    head := ⟨"feature/bar", "headsha2"⟩
    base := ⟨"release-ios", "basesha2"⟩
    title := "Fix release"
    labels := [⟨"Automerge"⟩]
    mergeable := some true
    mergeable_state := "clean" }

/-- The fixed fetch-depth increment (`FETCH_DEPTH` in `src/git.ts`). -/
def FETCH_DEPTH : Nat := 10

/--
What `fetchUntilMergeBase` observes of the git repository, as a function of
the current fetch depth (each `fetchDeepen` call adds `FETCH_DEPTH` to it):
`mergeBasePrim d a b` is the result of `git merge-base a b`, and
`mergeCommits d` the parsed result of `git.mergeCommits` (the parent lists
of the merge commits found by `git rev-list --parents ref..HEAD`).
A successful `git merge-base` prints a commit hash, so the source's
truthiness test `if (base)` on its result is modelled as the
non-null test.
-/
structure GitRepoView where
  mergeBasePrim : Nat → String → String → GitResult
  mergeCommits : Nat → List (List String)

/--
The `for (const parent of parents.flat())` loop of `fetchUntilMergeBase`
(`src/git.ts`): for each parent commit, compute its merge base with the
remote ref, collect distinct bases in order; if a parent has no common
ancestor with the ref, stop with `fetchMore = true`.  A non-code-1 failure
of the underlying `git merge-base` propagates.
-/
def collectBases (prim : String → String → GitResult) (ref : String) :
    List String → List String → Except Err (List String × Bool)
  | [], bases => .ok (bases, false)
  | parent :: rest, bases =>
    match (mergeBase prim [parent, ref]).1 with
    | .error e => .error e
    | .ok (some b) =>
      collectBases prim ref rest (if bases.contains b then bases else bases ++ [b])
    | .ok none => .ok (bases, true)

/--
The `while (new Date().getTime() < maxTime)` loop of `fetchUntilMergeBase`
(`src/git.ts`).  `fuel` is the number of loop-head clock checks the
caller-supplied wall-clock budget still allows; when it reaches 0 the loop
exits and a `TimeoutError` is thrown.  Each iteration computes
`merge-base(HEAD, ref)`; if found, it cross-validates the base against
every parent of every merge commit in the `ref..HEAD` range, returning the
merge base of all collected bases (or throwing the distinct
`failed to find common base` error if they have none); otherwise it deepens
the fetch by `FETCH_DEPTH` and loops.
-/
def fetchUntilMergeBaseGo (repo : GitRepoView) (ref : String) (depth : Nat) :
    Nat → Except Err String
  | 0 => .error .timeout
  | fuel + 1 =>
    match (mergeBase (repo.mergeBasePrim depth) ["HEAD", ref]).1 with
    | .error e => .error e
    | .ok none => fetchUntilMergeBaseGo repo ref (depth + FETCH_DEPTH) fuel
    | .ok (some base) =>
      match collectBases (repo.mergeBasePrim depth) ref
          (repo.mergeCommits depth).flatten [base] with
      | .error e => .error e
      | .ok (bases, fetchMore) =>
        if fetchMore then fetchUntilMergeBaseGo repo ref (depth + FETCH_DEPTH) fuel
        else
          match (mergeBase (repo.mergeBasePrim depth) bases).1 with
          | .error e => .error e
          | .ok none => .error .noCommonBase
          | .ok (some commonBase) => .ok commonBase

/-- `fetchUntilMergeBase` from `src/git.ts`: the search starts at the
current depth (0 deepenings so far) against `refs/remotes/origin/<branch>`. -/
def fetchUntilMergeBase (repo : GitRepoView) (branch : String) (fuel : Nat) :
    Except Err String :=
  fetchUntilMergeBaseGo repo ("refs/remotes/origin/" ++ branch) 0 fuel

/-- One iteration is validated when every flattened parent of a merge
commit in the queried range has a common ancestor with the remote ref. -/
def parentsValidated (repo : GitRepoView) (ref : String) (depth : Nat) : Prop :=
  ∀ p ∈ (repo.mergeCommits depth).flatten,
    ∃ bp, (mergeBase (repo.mergeBasePrim depth) [p, ref]).1 = .ok (some bp)

/-- A repository view in which `HEAD` and the remote ref share no history:
every `git merge-base` query exits with code 1. -/
def noHistRepo : GitRepoView :=
  { mergeBasePrim := fun _ _ _ => .error (.exitError (some 1) "")
    mergeCommits := fun _ => [] }

/--
A repository view exhibiting the third iteration outcome: at depth 0,
`merge-base(HEAD, ref)` yields `b1`, the queried range contains one merge
commit with parents `p1 p2` whose bases with the ref are both `b2`, and
`merge-base(b1, b2)` exits with code 1 — so the iteration throws the
`failed to find common base` error instead of returning a base or
deepening.
-/
def splitHistRepo : GitRepoView :=
  { mergeBasePrim := fun _ a _ =>
      if a = "HEAD" then .ok "b1"
      else if a = "b1" then .error (.exitError (some 1) "")
      else .ok "b2"
    mergeCommits := fun _ => [["p1", "p2"]] }

/-! ## Theorems -/

/--
**C8.** `mergeBase` given exactly one ref returns that ref unchanged with
zero `git merge-base` invocations; given an empty ref list it fails with the
invalid-input error; when the primitive fails with exit code 1 it returns
`null` (not-found) instead of propagating; any other primitive failure
propagates.
-/
theorem mergeBase_edge_cases
    (prim prim2 prim3 prim4 : String → String → GitResult) (a b r s out msg : String)
    (c : Int) (hc : c ≠ 1)
    (h1 : prim a b = .error (.exitError (some 1) s))
    (h2 : prim2 a b = .error (.exitError (some c) out))
    (h3 : prim3 a b = .error (.exitError none out))
    (h4 : prim4 a b = .error (.procError msg)) :
    mergeBase prim [r] = (.ok (some r), 0)
    ∧ mergeBase prim [] = (.error .emptyRefs, 0)
    ∧ mergeBase prim [a, b] = (.ok none, 1)
    ∧ mergeBase prim2 [a, b] = (.error (.git (.exitError (some c) out)), 1)
    ∧ mergeBase prim3 [a, b] = (.error (.git (.exitError none out)), 1)
    ∧ mergeBase prim4 [a, b] = (.error (.git (.procError msg)), 1) := by
  refine ⟨rfl, rfl, ?_, ?_, ?_, ?_⟩
  · simp only [mergeBase, mergeBaseLoop, h1]
  · simp only [mergeBase, mergeBaseLoop, h2]
    split
    · rename_i heq
      cases heq
    · rename_i heq
      cases heq
      exact absurd rfl hc
    · rename_i hne heq
      cases heq
      rfl
  · simp only [mergeBase, mergeBaseLoop, h3]
  · simp only [mergeBase, mergeBaseLoop, h4]

/-- Witness for C8 at concrete inputs. -/
theorem mergeBase_edge_cases_witness :
    mergeBase (fun _ _ => .error (.exitError (some 1) "")) ["x"] = (.ok (some "x"), 0)
    ∧ mergeBase (fun _ _ => .error (.exitError (some 1) "")) [] = (.error .emptyRefs, 0)
    ∧ mergeBase (fun _ _ => .error (.exitError (some 1) "")) ["x", "y"] = (.ok none, 1)
    ∧ mergeBase (fun _ _ => .error (.exitError (some 2) "boom")) ["x", "y"]
        = (.error (.git (.exitError (some 2) "boom")), 1)
    ∧ mergeBase (fun _ _ => .error (.exitError none "boom")) ["x", "y"]
        = (.error (.git (.exitError none "boom")), 1)
    ∧ mergeBase (fun _ _ => .error (.procError "spawn failed")) ["x", "y"]
        = (.error (.git (.procError "spawn failed")), 1) :=
  mergeBase_edge_cases (fun _ _ => .error (.exitError (some 1) ""))
    (fun _ _ => .error (.exitError (some 2) "boom"))
    (fun _ _ => .error (.exitError none "boom"))
    (fun _ _ => .error (.procError "spawn failed"))
    "x" "y" "x" "" "boom" "spawn failed" 2 (by decide) rfl rfl rfl rfl

/--
**C9.** `abortMerge` is idempotent cleanup: an `ExitError` with exit code 128
(no merge in progress) is swallowed and the call succeeds; any other failure
of the underlying `git merge --abort` is re-thrown unchanged; a successful
abort succeeds.
-/
theorem abortMerge_idempotent (s out msg : String) (c : Int) (hc : c ≠ 128) :
    abortMerge (.error (.exitError (some 128) s)) = .ok ()
    ∧ abortMerge (.error (.exitError (some c) out)) = .error (.exitError (some c) out)
    ∧ abortMerge (.error (.exitError none out)) = .error (.exitError none out)
    ∧ abortMerge (.error (.procError msg)) = .error (.procError msg)
    ∧ abortMerge (.ok s) = .ok () := by
  refine ⟨rfl, ?_, rfl, rfl, rfl⟩
  simp only [abortMerge]
  split
  · rename_i heq
    cases heq
    exact absurd rfl hc
  · rfl

/-- Witness for C9 at concrete inputs. -/
theorem abortMerge_idempotent_witness :
    abortMerge (.error (.exitError (some 128) "out")) = .ok ()
    ∧ abortMerge (.error (.exitError (some 2) "boom")) = .error (.exitError (some 2) "boom")
    ∧ abortMerge (.error (.exitError none "boom")) = .error (.exitError none "boom")
    ∧ abortMerge (.error (.procError "spawn failed")) = .error (.procError "spawn failed")
    ∧ abortMerge (.ok "out") = .ok () :=
  abortMerge_idempotent "out" "boom" "spawn failed" 2 (by decide)

/--
**C10.** If the exploratory no-commit merge inside `canMergeCleanly` fails
with an error that is not an `ExitError` (a plain process-spawn `Error`),
the function aborts the merge and then returns `null` — exactly the outcome
of a clean merge — so the caller treats the branch as conflict-free even
though the merge was never evaluated.
-/
theorem canMergeCleanly_swallows_non_exit_error
    (s1 s2 s3 s4 s5 msg : String) :
    canMergeCleanly ⟨.ok s1, .ok s2, .ok s3, .error (.procError msg), .ok s4⟩ = .ok none
    ∧ canMergeCleanly ⟨.ok s1, .ok s2, .ok s3, .ok s5, .ok s4⟩ = .ok none := by
  constructor <;> rfl

/--
**C4.** `checkMergeability` with a non-clean fetch (`mergeable` null or
state not `"clean"`) and a positive retry budget sleeps 2000 ms and retries
with the budget decremented; on exhaustion it returns the last observed
state; and on the verdict sequence `[unknown, unknown, clean]` with
`retries = 3` it returns the clean state after exactly two retries,
sleeping the 2000 ms delay exactly twice.
-/
theorem checkMergeability_spec (fetch : Nat → PRData) (r i : Nat)
    (h : (fetch i).mergeable = none ∨ (fetch i).mergeable_state ≠ "clean") :
    checkMergeability fetch (r + 1) i =
      ((checkMergeability fetch r (i + 1)).1, 2000 :: (checkMergeability fetch r (i + 1)).2)
    ∧ checkMergeability fetch 0 i = (fetch i, [])
    ∧ checkMergeability probeSeq 3 0 = (⟨some true, "clean"⟩, [2000, 2000]) := by
  refine ⟨?_, ?_, by decide⟩
  · simp only [checkMergeability]
    rw [if_pos h]
  · simp only [checkMergeability]
    rw [if_pos h]

/-- Witness for C4: the probe sequence itself satisfies the step equation at
its first (non-clean) fetch. -/
theorem checkMergeability_spec_witness :
    checkMergeability probeSeq 3 0 =
      ((checkMergeability probeSeq 2 1).1, 2000 :: (checkMergeability probeSeq 2 1).2)
    ∧ checkMergeability probeSeq 0 0 = (probeSeq 0, [])
    ∧ checkMergeability probeSeq 3 0 = (⟨some true, "clean"⟩, [2000, 2000]) :=
  checkMergeability_spec probeSeq 2 0 (Or.inl rfl)

/--
**C6.** `tryMerge` makes one initial attempt and at most 3 retries with a
fixed 10-second delay before each retry: on 4 consecutive endpoint failures
it returns overall failure after exactly 4 attempts (3 retry calls — no 5th
attempt) with three 10000 ms delays; if attempt index `n ≤ 3` is the first
success, it returns success with exactly `n` retry calls (attempt `n + 1`
overall) and no further attempts.
-/
theorem tryMerge_retry_policy (resp : Nat → MergeResp) (n : Nat) (hn : n ≤ 3)
    (hfail : ∀ k : Nat, k ≤ 3 → mergePR resp k = false)
    (resp2 : Nat → MergeResp)
    (hbefore : ∀ k : Nat, k < n → mergePR resp2 k = false)
    (hsucc : mergePR resp2 n = true) :
    tryMerge resp = ⟨false, 3, [10000, 10000, 10000], true⟩
    ∧ tryMerge resp2 = ⟨true, n, List.replicate n 10000, false⟩ := by
  constructor
  · have h0 := hfail 0 (by omega)
    have h1 := hfail 1 (by omega)
    have h2 := hfail 2 (by omega)
    have h3 := hfail 3 (by omega)
    simp [tryMerge, retry, retryLoop, h0, h1, h2, h3]
  · interval_cases n
    · simp [tryMerge, retry, hsucc]
    · have h0 := hbefore 0 (by omega)
      simp [tryMerge, retry, retryLoop, h0, hsucc, List.replicate]
    · have h0 := hbefore 0 (by omega)
      have h1 := hbefore 1 (by omega)
      simp [tryMerge, retry, retryLoop, h0, h1, hsucc, List.replicate]
    · have h0 := hbefore 0 (by omega)
      have h1 := hbefore 1 (by omega)
      have h2 := hbefore 2 (by omega)
      simp [tryMerge, retry, retryLoop, h0, h1, h2, hsucc, List.replicate]

/-- Witness for C6: all-failing responses, and success on the 2nd attempt. -/
theorem tryMerge_retry_policy_witness :
    tryMerge (fun _ => .status 500) = ⟨false, 3, [10000, 10000, 10000], true⟩
    ∧ tryMerge (fun k => if k = 1 then .status 200 else .exn "transport")
        = ⟨true, 1, List.replicate 1 10000, false⟩ :=
  tryMerge_retry_policy (fun _ => .status 500) 1 (by omega)
    (fun k _ => by simp [mergePR])
    (fun k => if k = 1 then .status 200 else .exn "transport")
    (fun k hk => by interval_cases k; simp [mergePR])
    (by simp [mergePR])

/--
**C2.** Any pull request whose mergeability verdict is neither `clean` nor
`unstable` is skipped by `processPR` with the non-error outcome, regardless
of its labels or base branch.
-/
theorem processPR_skips_blocked_verdicts (pr : PullRequestX)
    (h1 : pr.mergeable_state ≠ "clean") (h2 : pr.mergeable_state ≠ "unstable") :
    processPR pr = .skip := by
  simp only [processPR]
  rw [if_pos ⟨h1, h2⟩]

/-- Witness for C2 at a concrete blocked-but-otherwise-eligible PR. -/
theorem processPR_skips_blocked_verdicts_witness : processPR prDirty = .skip :=
  processPR_skips_blocked_verdicts prDirty (by decide) (by decide)

/-- Helper: when all three `processPR` checks pass, control reaches
`automerge`. -/
theorem processPR_merge_of (pr : PullRequestX)
    (hv2 : ¬(pr.mergeable_state ≠ "clean" ∧ pr.mergeable_state ≠ "unstable"))
    (hl : (pr.labels.map Label.name).contains "Automerge" = true)
    (hbase : ¬(pr.base.ref ≠ "master" ∧ ¬ isMergingIntoRelease pr)) :
    processPR pr = .merge := by
  simp only [processPR]
  rw [if_neg hv2, if_neg (fun hc => hc hl), if_neg hbase]

/--
**C3.** For an eligible pull request (verdict `clean`/`unstable`, label
present) the strategy depends only on the target branch: base `master`
yields `squash` with the synthesized `"<title> (#<number>)"` commit title,
except that a head under the `feature/fix-pr-` reconciliation prefix yields
`merge` with no title; a release-pattern base yields `merge`; a base that
is neither `master` nor a release branch is skipped.
-/
theorem classify_strategy (pr : PullRequestX)
    (hv : pr.mergeable_state = "clean" ∨ pr.mergeable_state = "unstable")
    (hl : (pr.labels.map Label.name).contains "Automerge" = true) :
    (pr.base.ref = "master" → pr.head.ref.startsWith "feature/fix-pr-" = false →
      classify pr = .go .squash (some (pr.title ++ " (#" ++ toString pr.number ++ ")")))
    ∧ (pr.base.ref = "master" → pr.head.ref.startsWith "feature/fix-pr-" = true →
      classify pr = .go .merge none)
    ∧ (isMergingIntoRelease pr = true → classify pr = .go .merge none)
    ∧ (pr.base.ref ≠ "master" → isMergingIntoRelease pr = false → classify pr = .skip) := by
  have hv2 : ¬(pr.mergeable_state ≠ "clean" ∧ pr.mergeable_state ≠ "unstable") := by
    rcases hv with h | h <;> simp [h]
  have hstart : "master".startsWith "releases/" = false := rfl
  refine ⟨?_, ?_, ?_, ?_⟩
  · intro hb hh
    have hm : processPR pr = .merge :=
      processPR_merge_of pr hv2 hl (fun hc => hc.1 hb)
    simp only [classify, hm]
    simp [automergeStrategy, hb, hh]
  · intro hb hh
    have hm : processPR pr = .merge :=
      processPR_merge_of pr hv2 hl (fun hc => hc.1 hb)
    simp only [classify, hm]
    simp [automergeStrategy, hb, hh]
  · intro hrel
    have hb : pr.base.ref ≠ "master" := by
      intro hb
      rw [isMergingIntoRelease, hb] at hrel
      rw [hstart] at hrel
      simp at hrel
    have hm : processPR pr = .merge :=
      processPR_merge_of pr hv2 hl (fun hc => hc.2 hrel)
    simp only [classify, hm]
    simp [automergeStrategy, hb]
  · intro hb hrel
    have hskip : processPR pr = .skip := by
      simp only [processPR]
      rw [if_neg hv2, if_neg (fun hc => hc hl),
        if_pos ⟨hb, fun hc => by rw [hrel] at hc; exact Bool.noConfusion hc⟩]
    simp only [classify, hskip]

/-- Witness for C3: the concrete master-target PR is squashed with the
synthesized title. -/
theorem classify_strategy_witness :
    classify prMaster = .go .squash (some "Add thing (#42)") :=
  (classify_strategy prMaster (Or.inl rfl) rfl).1 rfl rfl

/--
**C5.** On every run of `checkRollupToMaster` that finds a conflict,
exactly one `failure` status with the fixed context string is posted, and
the explanatory comment is posted unless more than one status with that
context already exists and the most recent of them is in state `failure` or
`error`; when the head merges cleanly the run returns the no-conflict
result and posts no status and no comment.
-/
theorem checkRollupToMaster_spec (m : String) (sts : List CommitStatus) :
    (checkRollupToMaster (some m) sts).result = false
    ∧ (checkRollupToMaster (some m) sts).postedStatuses = [⟨rollupStatusContext, "failure"⟩]
    ∧ ((checkRollupToMaster (some m) sts).commentPosted = false ↔
        ((sts.filter (fun s => s.context == rollupStatusContext)).length > 1
          ∧ ∃ s0, (sts.filter (fun s => s.context == rollupStatusContext)).head? = some s0
              ∧ (s0.state = "failure" ∨ s0.state = "error")))
    ∧ checkRollupToMaster none sts = ⟨true, [], false⟩ := by
  refine ⟨rfl, rfl, ?_, rfl⟩
  simp only [checkRollupToMaster]
  split
  · rename_i hlen
    cases hh : (sts.filter (fun s => s.context == rollupStatusContext)).head? with
    | none =>
      rw [List.head?_eq_none_iff] at hh
      rw [hh] at hlen
      simp at hlen
    | some s0 =>
      simp only [hh]
      constructor
      · intro hfalse
        refine ⟨hlen, s0, rfl, ?_⟩
        exact or_iff_not_imp_left.mpr (by simpa using hfalse)
      · rintro ⟨-, s1, hs1, hstate⟩
        cases hs1
        rcases hstate with h | h <;> simp [h]
  · rename_i hlen
    constructor
    · intro h
      exact absurd h (by decide)
    · rintro ⟨hgt, -⟩
      exact absurd hgt hlen

/-- Helper: a release-target run whose rollup check found a conflict stops
after posting it. -/
theorem automerge_trace_conflict (pr : PullRequestX) (lm : Option String) (tm : Bool)
    (hrel : isMergingIntoRelease pr = true) :
    automerge pr false lm tm = ([.setRemote, .rollupCheck true], .rollupAborted) := by
  simp [automerge, hrel]

/-- Helper: a release-target run whose local forward-merge into `master`
fails throws before pushing or merging the PR. -/
theorem automerge_trace_merge_fail (pr : PullRequestX) (msg : String) (tm : Bool)
    (hrel : isMergingIntoRelease pr = true) :
    automerge pr true (some msg) tm =
      ([.setRemote, .rollupCheck false, .localMergeMaster true], .threwMergeToMasterFailed) := by
  simp [automerge, hrel]

/-- Helper: a release-target run with a clean rollup check and a clean local
merge performs the full event sequence ending in the PR merge attempt. -/
theorem automerge_trace_ok (pr : PullRequestX) (tm : Bool)
    (hrel : isMergingIntoRelease pr = true) :
    (automerge pr true none tm).1 =
      [.setRemote, .rollupCheck false, .localMergeMaster false, .pushMaster,
       .mergePRAttempt] := by
  cases tm <;> simp [automerge, hrel]

/--
**C1.** For a release-target pull request, the platform-level merge attempt
appears in the `automerge` trace only when the rollup check reported no
conflict and the local forward-merge into `master` succeeded, and then only
as the last event, after the successful local merge and the push of
`master`; if the rollup check reports a conflict or the forward-merge
fails, the merge attempt never occurs.
-/
theorem automerge_merges_main_first (pr : PullRequestX) (rollupOk tryMergeOk : Bool)
    (localMergeResult : Option String) (hrel : isMergingIntoRelease pr = true) :
    ((automerge pr rollupOk localMergeResult tryMergeOk).1.contains .mergePRAttempt = true →
      rollupOk = true ∧ localMergeResult = none
      ∧ (automerge pr rollupOk localMergeResult tryMergeOk).1 =
          [.setRemote, .rollupCheck false, .localMergeMaster false, .pushMaster,
           .mergePRAttempt])
    ∧ (rollupOk = false →
        (automerge pr rollupOk localMergeResult tryMergeOk).1.contains .mergePRAttempt = false)
    ∧ (localMergeResult ≠ none →
        (automerge pr rollupOk localMergeResult tryMergeOk).1.contains .mergePRAttempt
          = false) := by
  refine ⟨?_, ?_, ?_⟩
  · intro hin
    cases rollupOk with
    | false =>
      rw [automerge_trace_conflict pr localMergeResult tryMergeOk hrel] at hin
      exact absurd hin (by decide)
    | true =>
      cases localMergeResult with
      | some msg =>
        rw [automerge_trace_merge_fail pr msg tryMergeOk hrel] at hin
        exact absurd hin (by decide)
      | none => exact ⟨rfl, rfl, automerge_trace_ok pr tryMergeOk hrel⟩
  · intro hr
    subst hr
    rw [automerge_trace_conflict pr localMergeResult tryMergeOk hrel]
    decide
  · intro hm
    cases localMergeResult with
    | none => exact absurd rfl hm
    | some msg =>
      cases rollupOk with
      | false =>
        rw [automerge_trace_conflict pr (some msg) tryMergeOk hrel]
        decide
      | true =>
        rw [automerge_trace_merge_fail pr msg tryMergeOk hrel]
        decide

/-- Witness for C1: on the concrete release PR with a clean rollup check and
a clean local merge, the trace is exactly remote-setup, rollup check, local
merge into master, push of master, then the PR merge attempt. -/
theorem automerge_merges_main_first_witness :
    (automerge prRelease true none true).1 =
      [.setRemote, .rollupCheck false, .localMergeMaster false, .pushMaster,
       .mergePRAttempt] :=
  ((automerge_merges_main_first prRelease true true none rfl).1 rfl).2.2

/-- Helper: `mergeBase` never fails with the timeout error. -/
theorem mergeBase_no_timeout (prim : String → String → GitResult)
    (refs : List String) (e0 : Err)
    (h : (mergeBase prim refs).1 = .error e0) : e0 ≠ .timeout := by
  match refs with
  | [r] => simp [mergeBase] at h
  | [] =>
    simp only [mergeBase] at h
    cases h
    decide
  | a :: b :: rest =>
    simp only [mergeBase] at h
    rcases hl : mergeBaseLoop prim a (b :: rest) 0 with ⟨res, n⟩
    rw [hl] at h
    split at h
    · cases h
    · cases h
    · rename_i hne heq
      cases h
      simp

/-- Helper: `collectBases` never fails with the timeout error. -/
theorem collectBases_no_timeout (prim : String → String → GitResult)
    (ref : String) (ps bases : List String) (e0 : Err)
    (h : collectBases prim ref ps bases = .error e0) : e0 ≠ .timeout := by
  induction ps generalizing bases with
  | nil => simp [collectBases] at h
  | cons p rest ih =>
    simp only [collectBases] at h
    rcases hmb : (mergeBase prim [p, ref]).1 with e | ob
    · rw [hmb] at h
      cases h
      exact mergeBase_no_timeout prim [p, ref] e0 hmb
    · rw [hmb] at h
      cases ob with
      | none => cases h
      | some b => exact ih _ h

/-- Helper: a `collectBases` run that returns `fetchMore = false` found a
common ancestor with the remote ref for every parent it was given. -/
theorem collectBases_validates (prim : String → String → GitResult)
    (ref : String) (ps bases bases2 : List String)
    (h : collectBases prim ref ps bases = .ok (bases2, false)) :
    ∀ p ∈ ps, ∃ bp, (mergeBase prim [p, ref]).1 = .ok (some bp) := by
  induction ps generalizing bases with
  | nil => intro p hp; cases hp
  | cons q rest ih =>
    intro p hp
    simp only [collectBases] at h
    rcases hmb : (mergeBase prim [q, ref]).1 with e | ob
    · rw [hmb] at h
      cases h
    · rw [hmb] at h
      cases ob with
      | none =>
        simp only [Except.ok.injEq, Prod.mk.injEq] at h
        exact absurd h.2 (by decide)
      | some b =>
        rcases List.mem_cons.mp hp with hq | hrest
        · subst hq
          exact ⟨b, hmb⟩
        · exact ih _ h p hrest

/--
**C7 (amended).** The common-ancestor locator: (a) when the caller-supplied
wall-clock budget elapses at the loop head, it fails with the
`TimeoutError`; (b) for two refs sharing no history (every
`merge-base(HEAD, ref)` query exits with code 1) it never returns a base
and exhausts to the timeout; (c) each loop iteration either deepens the
fetch by the fixed `FETCH_DEPTH` increment, or returns a base after
validating every parent of every merge commit in the queried range against
the remote ref, or fails with a distinct non-timeout error (a propagated
git failure, or the `failed to find common base` error raised when the
collected candidate bases themselves share no common ancestor).
-/
theorem fetchUntilMergeBase_timeout (repo : GitRepoView) (r : String) (d fuel : Nat)
    (hnohist : ∀ d2 : Nat, ∃ s : String,
      repo.mergeBasePrim d2 "HEAD" r = .error (.exitError (some 1) s)) :
    fetchUntilMergeBaseGo repo r d 0 = .error .timeout
    ∧ fetchUntilMergeBaseGo repo r d fuel = .error .timeout
    ∧ ∀ (repo2 : GitRepoView) (d2 f2 : Nat),
        fetchUntilMergeBaseGo repo2 r d2 (f2 + 1)
            = fetchUntilMergeBaseGo repo2 r (d2 + FETCH_DEPTH) f2
        ∨ (∃ b, fetchUntilMergeBaseGo repo2 r d2 (f2 + 1) = .ok b
            ∧ parentsValidated repo2 r d2)
        ∨ (∃ e, fetchUntilMergeBaseGo repo2 r d2 (f2 + 1) = .error e ∧ e ≠ .timeout) := by
  refine ⟨rfl, ?_, ?_⟩
  · induction fuel generalizing d with
    | zero => rfl
    | succ f ih =>
      obtain ⟨s, hs⟩ := hnohist d
      have hmb : (mergeBase (repo.mergeBasePrim d) ["HEAD", r]).1 = .ok none := by
        simp only [mergeBase, mergeBaseLoop, hs]
      simp only [fetchUntilMergeBaseGo]
      rw [hmb]
      exact ih (d + FETCH_DEPTH)
  · intro repo2 d2 f2
    rcases hmb : (mergeBase (repo2.mergeBasePrim d2) ["HEAD", r]).1 with e | ob
    · refine Or.inr (Or.inr ⟨e, ?_, mergeBase_no_timeout _ _ _ hmb⟩)
      simp only [fetchUntilMergeBaseGo]
      rw [hmb]
    · cases ob with
      | none =>
        refine Or.inl ?_
        simp only [fetchUntilMergeBaseGo]
        rw [hmb]
      | some base =>
        rcases hcb : collectBases (repo2.mergeBasePrim d2) r
            (repo2.mergeCommits d2).flatten [base] with e | pair
        · refine Or.inr (Or.inr ⟨e, ?_, collectBases_no_timeout _ _ _ _ _ hcb⟩)
          simp only [fetchUntilMergeBaseGo, hmb, hcb]
        · rcases pair with ⟨bases, fetchMore⟩
          cases fetchMore with
          | true =>
            refine Or.inl ?_
            simp only [fetchUntilMergeBaseGo, hmb, hcb]
            rfl
          | false =>
            rcases hfin : (mergeBase (repo2.mergeBasePrim d2) bases).1 with e | ob2
            · refine Or.inr (Or.inr ⟨e, ?_, mergeBase_no_timeout _ _ _ hfin⟩)
              simp only [fetchUntilMergeBaseGo, hmb, hcb, hfin]
              rfl
            · cases ob2 with
              | none =>
                refine Or.inr (Or.inr ⟨.noCommonBase, ?_, by decide⟩)
                simp only [fetchUntilMergeBaseGo, hmb, hcb, hfin]
                rfl
              | some commonBase =>
                refine Or.inr (Or.inl ⟨commonBase, ?_, ?_⟩)
                · simp only [fetchUntilMergeBaseGo, hmb, hcb, hfin]
                  rfl
                · exact collectBases_validates _ _ _ _ _ hcb

/-- Witness for C7: on the no-shared-history repository the search exhausts
any budget and fails with the timeout error. -/
theorem fetchUntilMergeBase_timeout_witness :
    fetchUntilMergeBaseGo noHistRepo "refs/remotes/origin/b" 0 5 = .error .timeout :=
  (fetchUntilMergeBase_timeout noHistRepo "refs/remotes/origin/b" 0 5
    (fun _ => ⟨"", rfl⟩)).2.1

/--
Counterexample to C7 as stated: an iteration of `fetchUntilMergeBase` can
fail with the `failed to find common base` error — neither returning a
validated base nor deepening the fetch, and failing before the wall-clock
budget elapses with an error that is not the `TimeoutError`.
-/
theorem fetchUntilMergeBase_dichotomy_cex :
    fetchUntilMergeBaseGo splitHistRepo "refs/remotes/origin/b" 0 1
        = .error .noCommonBase
    ∧ fetchUntilMergeBaseGo splitHistRepo "refs/remotes/origin/b" 10 0
        = .error .timeout
    ∧ Err.noCommonBase ≠ Err.timeout := by
  refine ⟨rfl, rfl, by decide⟩

end Automerger
